import Mathlib

/-!
Verification of the `youtube_transcript_fetcher.py` command-line tool.

Strings are modelled as `List Char` (`Chars`); Python floats are modelled as
exact rationals (`ℚ`); the two external transcript providers, the interactive
prompts and the three file writers are modelled as an explicit environment
(`Env`), and `main` becomes a pure function from that environment to the list
of externally visible events plus the process outcome (`mainRun`).

The URL machinery (`urlparse`, `parse_qs`, `re.search`) is embedded from the
CPython standard library to the fidelity the program exercises:
`urlsplit`'s leading C0-control/space strip and tab/CR/LF removal, scheme,
netloc, fragment, query and params splitting, `hostname` extraction (without
the IPv6 bracket branch), `parse_qsl` with its default keep-blank/strict
flags, and `unquote_plus` with percent-decoding of single bytes (multi-byte
UTF-8 percent sequences are out of scope of every claim).
-/

abbrev Chars := List Char

/-- Python `str.strip()` whitespace test, restricted to the ASCII whitespace
characters (the only ones the program's inputs can contain). -/
def pyIsSpaceChar (c : Char) : Bool :=
  c == ' ' || c == '\t' || c == '\n' || c == '\r' || c == '\x0b' || c == '\x0c'

/-- Python `str.strip()`. -/
def pyStrip (s : Chars) : Chars :=
  ((s.dropWhile pyIsSpaceChar).reverse.dropWhile pyIsSpaceChar).reverse

def asciiLowerChar (c : Char) : Char :=
  if 'A' ≤ c && c ≤ 'Z' then Char.ofNat (c.toNat + 32) else c

def asciiLower (s : Chars) : Chars := s.map asciiLowerChar

/-- The bytes CPython `urlsplit` removes anywhere in the URL. -/
def isTabNl (c : Char) : Bool := c == '\t' || c == '\n' || c == '\r'

def removeUnsafeBytes (s : Chars) : Chars := s.filter (fun c => !(isTabNl c))

/-- CPython `_WHATWG_C0_CONTROL_OR_SPACE` membership. -/
def isC0OrSpace (c : Char) : Bool := c.toNat ≤ 32

def lstripControlSpace (s : Chars) : Chars := s.dropWhile isC0OrSpace

/-- Split a list at the first character satisfying `p`: returns the prefix
before it and, if found, the remainder after it. -/
def splitAtFirst (p : Char → Bool) : Chars → Chars × Option Chars
  | [] => ([], none)
  | c :: cs =>
    if p c then ([], some cs)
    else
      let r := splitAtFirst p cs
      (c :: r.1, r.2)

def isSchemeChar (c : Char) : Bool :=
  c.isAlpha || c.isDigit || c == '+' || c == '-' || c == '.'

/-- CPython `urlsplit` scheme detection: a leading alpha followed by scheme
characters up to the first `:`. Returns (lowercased scheme, remainder);
on no valid scheme, returns (empty, whole input). -/
def splitScheme (url : Chars) : Chars × Chars :=
  match splitAtFirst (fun c => c == ':') url with
  | (c0 :: cs, some rest) =>
    if c0.isAlpha && cs.all isSchemeChar then (asciiLower (c0 :: cs), rest)
    else ([], url)
  | ([], some _) => ([], url)
  | (_, none) => ([], url)

def notNetlocDelim (c : Char) : Bool := !(c == '/' || c == '?' || c == '#')

/-- CPython `_splitnetloc`, applied when the remainder starts with `//`. -/
def splitNetloc : Chars → Chars × Chars
  | '/' :: '/' :: r => (r.takeWhile notNetlocDelim, r.dropWhile notNetlocDelim)
  | u => ([], u)

def splitHashFrag (u : Chars) : Chars × Chars :=
  match splitAtFirst (fun c => c == '#') u with
  | (a, some b) => (a, b)
  | (a, none) => (a, [])

def splitQuery (u : Chars) : Chars × Chars :=
  match splitAtFirst (fun c => c == '?') u with
  | (a, some b) => (a, b)
  | (a, none) => (a, [])

/-- CPython `_splitparams`: split `;params` off the last path segment. -/
def splitParams (p : Chars) : Chars × Chars :=
  if p.contains ';' then
    if p.contains '/' then
      let tailSeg := (p.reverse.takeWhile (fun c => !(c == '/'))).reverse
      let pre := p.take (p.length - tailSeg.length)
      match splitAtFirst (fun c => c == ';') tailSeg with
      | (x, some rest) => (pre ++ x, rest)
      | (_, none) => (p, [])
    else
      match splitAtFirst (fun c => c == ';') p with
      | (x, some rest) => (x, rest)
      | (_, none) => (p, [])
  else (p, [])

structure UrlParts where
  scheme : Chars
  netloc : Chars
  path : Chars
  params : Chars
  query : Chars
  fragment : Chars
deriving DecidableEq

/-- CPython `urllib.parse.urlparse` (via `urlsplit`), for `allow_fragments`. -/
def urlparse (url0 : Chars) : UrlParts :=
  let url1 := removeUnsafeBytes (lstripControlSpace url0)
  let sr := splitScheme url1
  let nr := splitNetloc sr.2
  let fr := splitHashFrag nr.2
  let qr := splitQuery fr.1
  let pp := splitParams qr.1
  ⟨sr.1, nr.1, pp.1, pp.2, qr.2, fr.2⟩

/-- CPython `ParseResult.hostname`: the part of the netloc after the last
`@` and before the first `:`, lowercased; `None` when empty.
(The IPv6 `[...]` branch is not modelled; no claim exercises it.) -/
def hostnameOf (netloc : Chars) : Option Chars :=
  let hostinfo := (netloc.reverse.takeWhile (fun c => !(c == '@'))).reverse
  let host := hostinfo.takeWhile (fun c => !(c == ':'))
  if host.isEmpty then none else some (asciiLower host)

/-- Python `str.split(sep)` for a one-character separator. -/
def splitOnChar (sep : Char) : Chars → List Chars
  | [] => [[]]
  | c :: cs =>
    if c == sep then [] :: splitOnChar sep cs
    else
      match splitOnChar sep cs with
      | [] => [[c]]
      | a :: as => (c :: a) :: as

def hexVal (c : Char) : Option ℕ :=
  if '0' ≤ c && c ≤ '9' then some (c.toNat - 48)
  else if 'a' ≤ c && c ≤ 'f' then some (c.toNat - 87)
  else if 'A' ≤ c && c ≤ 'F' then some (c.toNat - 55)
  else none

/-- CPython `urllib.parse.unquote` percent-decoding, one byte per `%XX`
(multi-byte UTF-8 sequences are decoded byte by byte here; no claim
involves them). Invalid sequences keep the `%` and continue. -/
def pctDecode : Chars → Chars
  | [] => []
  | c :: rest =>
    if c = '%' then
      match rest with
      | h1 :: h2 :: rest2 =>
        match hexVal h1, hexVal h2 with
        | some a, some b => Char.ofNat (16 * a + b) :: pctDecode rest2
        | _, _ => '%' :: pctDecode (h1 :: h2 :: rest2)
      | [] => ['%']
      | [h1] => '%' :: pctDecode [h1]
    else c :: pctDecode rest
termination_by l => l.length
decreasing_by all_goals (simp only [List.length_cons]; omega)

def plusToSpace (c : Char) : Char := if c == '+' then ' ' else c

/-- CPython `urllib.parse.unquote_plus`. -/
def unquotePlus (s : Chars) : Chars := pctDecode (s.map plusToSpace)

/-- CPython `urllib.parse.parse_qsl` with default flags: empty fields are
skipped, fields without `=` are skipped, fields with an empty value are
skipped, names and values are `unquote_plus`-decoded. -/
def parseQsl (query : Chars) : List (Chars × Chars) :=
  (splitOnChar '&' query).foldr
    (fun field acc =>
      if field.isEmpty then acc
      else
        match splitAtFirst (fun c => c == '=') field with
        | (_, none) => acc
        | (name, some value) =>
          if value.isEmpty then acc
          else (unquotePlus name, unquotePlus value) :: acc)
    []

/-- Python's substring test `needle in hay` (used as `"watch" in parsed.path`). -/
def hasSubstr (needle : Chars) : Chars → Bool
  | [] => needle.isEmpty
  | c :: cs => needle.isPrefixOf (c :: cs) || hasSubstr needle cs

/-- The regex character class `[0-9A-Za-z_-]`. -/
def idChar (c : Char) : Bool :=
  ('0' ≤ c && c ≤ '9') || ('A' ≤ c && c ≤ 'Z') || ('a' ≤ c && c ≤ 'z') ||
    c == '_' || c == '-'

/-- The alternation `(?:embed/|v/|shorts/)` tried at one position, returning
the remainder after the marker (alternatives in the pattern's order; their
first characters differ, so no backtracking between them can occur). -/
def markerRest (l : Chars) : Option Chars :=
  if (("embed/").toList).isPrefixOf l then some (l.drop 6)
  else if (("v/").toList).isPrefixOf l then some (l.drop 2)
  else if (("shorts/").toList).isPrefixOf l then some (l.drop 7)
  else none

/-- One attempt of the pattern `(?:embed/|v/|shorts/)([0-9A-Za-z_-]{11})`
anchored at the start of `l`, returning the captured group. -/
def tryAt (l : Chars) : Option Chars :=
  match markerRest l with
  | some rest =>
    if 11 ≤ rest.length && (rest.take 11).all idChar then some (rest.take 11)
    else none
  | none => none

/-- `re.search` of the pattern: leftmost position wins. -/
def reSearchId : Chars → Option Chars
  | [] => none
  | c :: cs =>
    match tryAt (c :: cs) with
    | some t => some t
    | none => reSearchId cs

def msgInvalidUrl : Chars := ("Could not determine video ID from URL.").toList

/-- `video_id_from_url` from the source: `youtu.be` host → path with leading
slashes stripped; else a path containing `watch` plus a `v` query parameter →
its first value; else the first embed/v//shorts/ 11-character token anywhere
in the raw URL; else `ValueError` (modelled as `Except.error`). -/
def videoIdFromUrl (url : Chars) : Except Chars Chars :=
  let parsed := urlparse url
  if hostnameOf parsed.netloc = some (("youtu.be").toList) then
    .ok (parsed.path.dropWhile (fun c => c == '/'))
  else
    match hasSubstr (("watch").toList) parsed.path,
          List.lookup (("v").toList) (parseQsl parsed.query) with
    | true, some v0 => .ok v0
    | _, _ =>
      match reSearchId url with
      | some tok => .ok tok
      | none => .error msgInvalidUrl

instance : DecidableEq (Except Chars Chars) := fun a b =>
  match a, b with
  | .ok x, .ok y => decidable_of_iff (x = y) (by simp)
  | .error x, .error y => decidable_of_iff (x = y) (by simp)
  | .ok _, .error _ => isFalse (by simp)
  | .error _, .ok _ => isFalse (by simp)

/-! ### Transcript data model and the two providers -/

/-- One transcript segment (`text`, `start`, `duration`); Python floats are
modelled as exact rationals. -/
structure Segment where
  text : Chars
  start : ℚ
  duration : ℚ
deriving DecidableEq

/-- One `<text start=... dur=...>` entry of a caption track's timed-text
markup, with the two float attributes already numeric (Python's
`float(...)` of the attribute strings is abstracted to the exact value). -/
structure XmlEntry where
  startAttr : ℚ
  durAttr : ℚ
  content : Chars
deriving DecidableEq

/-- The dict the pytube path builds per entry: text stripped, floats parsed. -/
def parseXmlEntry (e : XmlEntry) : Segment :=
  ⟨pyStrip e.content, e.startAttr, e.durAttr⟩

/-- Behavior of the primary provider (`youtube_transcript_api`) on this run:
a fetched segment list, one of the two caught exception types, or any other
raised exception. -/
inductive PrimaryResult where
  | fetched (segs : List Segment)
  | transcriptsDisabled
  | noTranscriptFound
  | raised (msg : Chars)
deriving DecidableEq

/-- `fetch_with_yta`: returns the fetched transcript, returns `None` on
`TranscriptsDisabled`/`NoTranscriptFound`, and lets anything else propagate
(modelled as `Except.error`). -/
def fetchWithYta (r : PrimaryResult) : Except Chars (Option (List Segment)) :=
  match r with
  | .fetched segs => .ok (some segs)
  | .transcriptsDisabled => .ok none
  | .noTranscriptFound => .ok none
  | .raised m => .error m

/-- The loop body of `fetch_with_pytube`: walk the candidate codes, look each
up in the caption-track table (`yt.captions.get`), and on the first hit parse
its markup and return. Also returns the list of codes consulted, mirroring
which `captions.get` calls the loop performs. -/
def scanTracks (tracks : List (Chars × List XmlEntry)) :
    List Chars → List Chars × Option (List Segment)
  | [] => ([], none)
  | code :: rest =>
    match List.lookup code tracks with
    | some xml => ([code], some (xml.map parseXmlEntry))
    | none =>
      let r := scanTracks tracks rest
      (code :: r.1, r.2)

/-- `fetch_with_pytube`: candidates are the preferred languages in order,
then `"a." + languages[0]`; `None` when no candidate has a track. The track
table stands for the pytube `YouTube(...).captions` of the requested video.
(`languages` is always the nonempty `[args.lang]` in `main`; on `[]` the
Python code would raise `IndexError` before the loop — unreachable here.) -/
def fetchWithPytube (tracks : List (Chars × List XmlEntry))
    (languages : List Chars) : List Chars × Option (List Segment) :=
  match languages with
  | [] => ([], none)
  | l0 :: rest => scanTracks tracks ((l0 :: rest) ++ [('a' :: '.' :: l0)])

/-! ### Format writers: file contents -/

/-- `save_as_txt` file content: each segment's text followed by `"\n"`. -/
def txtFileContent (transcript : List Segment) : Chars :=
  (transcript.map (fun s => s.text ++ ['\n'])).flatten

/-- The lines of a text file, Python `str.splitlines` style for `\n`-separated
content: split on `'\n'`, dropping the empty piece after a final newline. -/
def fileLines (cs : Chars) : List Chars :=
  let ps := splitOnChar '\n' cs
  match ps.getLast? with
  | some [] => ps.dropLast
  | _ => ps

/-- JSON values, as far as this program's files need them. -/
inductive Json where
  | str (s : Chars)
  | num (q : ℚ)
  | arr (items : List Json)
  | obj (fields : List (Chars × Json))

/-- The dict written per segment: keys in insertion order
`text`, `start`, `duration`. -/
def jsonOfSegment (s : Segment) : Json :=
  .obj [((("text").toList), .str s.text),
        ((("start").toList), .num s.start),
        ((("duration").toList), .num s.duration)]

/-- The value `json.dump` serializes: the ordered list of segment dicts. -/
def jsonDumpSegments (segs : List Segment) : Json :=
  .arr (segs.map jsonOfSegment)

/-- Reading one segment back from a parsed JSON object (dict key lookup). -/
def segOfJson : Json → Option Segment
  | .obj fields =>
    match List.lookup (("text").toList) fields,
          List.lookup (("start").toList) fields,
          List.lookup (("duration").toList) fields with
    | some (.str t), some (.num s), some (.num d) => some ⟨t, s, d⟩
    | _, _, _ => none
  | _ => none

def segsOfJsonList : List Json → Option (List Segment)
  | [] => some []
  | j :: js =>
    match segOfJson j, segsOfJsonList js with
    | some s, some ss => some (s :: ss)
    | _, _ => none

/-- Reading the whole file back (`json.load` then field access). -/
def jsonLoadSegments : Json → Option (List Segment)
  | .arr items => segsOfJsonList items
  | _ => none

def hexDigitChar (n : ℕ) : Char :=
  if n < 10 then Char.ofNat (48 + n) else Char.ofNat (87 + (n - 10))

/-- CPython `json.encoder.py_encode_basestring` (the `ensure_ascii=False`
escaper): only backslash, double quote and C0 controls are escaped; all
other characters — in particular all non-ASCII — are written verbatim. -/
def escapeJsonChar (c : Char) : Chars :=
  if c == '\\' then ('\\' :: '\\' :: [])
  else if c == '"' then ('\\' :: '"' :: [])
  else if c == '\n' then ('\\' :: 'n' :: [])
  else if c == '\r' then ('\\' :: 'r' :: [])
  else if c == '\t' then ('\\' :: 't' :: [])
  else if c == '\x08' then ('\\' :: 'b' :: [])
  else if c == '\x0c' then ('\\' :: 'f' :: [])
  else if c.toNat < 32 then
    '\\' :: 'u' :: '0' :: '0' ::
      hexDigitChar (c.toNat / 16) :: hexDigitChar (c.toNat % 16) :: []
  else [c]

def escapeJsonString (s : Chars) : Chars := (s.map escapeJsonChar).flatten

def quoteStr (s : Chars) : Chars := '"' :: escapeJsonString s ++ ['"']

/-- Least exponent `e` with `d ∣ 10^e`, searched with fuel (every Python
float's reduced denominator divides some `10^e` with `e ≤ 1100`). -/
def decExpFrom (d : ℕ) : ℕ → ℕ → Option ℕ
  | _, 0 => none
  | e, Nat.succ fuel =>
    if 10 ^ e % d = 0 then some e else decExpFrom d (e + 1) fuel

/-- Python `repr(float)` for the finite-decimal rationals that model this
program's floats: shortest exact decimal, with a trailing `.0` for whole
numbers (scientific notation for extreme magnitudes is not modelled; no
claim involves them). -/
def renderNum (q : ℚ) : Chars :=
  let e := (decExpFrom q.den 0 1200).getD 0
  let m := q.num.natAbs * 10 ^ e / q.den
  let sign : Chars := if q.num < 0 then ['-'] else []
  let ip := m / 10 ^ e
  let fp := m % 10 ^ e
  if e = 0 then sign ++ Nat.toDigits 10 ip ++ ('.' :: '0' :: [])
  else
    let fpd := Nat.toDigits 10 fp
    sign ++ Nat.toDigits 10 ip ++
      '.' :: (List.replicate (e - fpd.length) '0' ++ fpd)

def lcurl : Char := '\x7b'

def rcurl : Char := '\x7d'

/-- One segment dict as `json.dump(..., ensure_ascii=False, indent=2)` prints
it, as the element of the top-level array (so at nesting depth 1). -/
def renderSegObjIndent2 (s : Segment) : Chars :=
  lcurl :: '\n' :: (("    ").toList) ++ quoteStr (("text").toList) ++
    ':' :: ' ' :: quoteStr s.text ++
    ',' :: '\n' :: (("    ").toList) ++ quoteStr (("start").toList) ++
    ':' :: ' ' :: renderNum s.start ++
    ',' :: '\n' :: (("    ").toList) ++ quoteStr (("duration").toList) ++
    ':' :: ' ' :: renderNum s.duration ++
    '\n' :: (("  ").toList) ++ [rcurl]

/-- The full text `json.dump(transcript_list, f, ensure_ascii=False, indent=2)`
writes to the `.json` file. -/
def jsonFileContent (segs : List Segment) : Chars :=
  match segs with
  | [] => ('[' :: ']' :: [])
  | s0 :: rest =>
    '[' :: '\n' :: (("  ").toList) ++ renderSegObjIndent2 s0 ++
      (rest.map (fun s => ',' :: '\n' :: (("  ").toList) ++
        renderSegObjIndent2 s)).flatten ++
      '\n' :: (']' :: [])

/-! ### Paginated-document writer: timestamp labels -/

/-- Python `int(...)`: truncation toward zero. -/
def pyInt (q : ℚ) : ℤ := if 0 ≤ q then ⌊q⌋ else ⌈q⌉

/-- Python float `//`: floor division, returning a float. -/
def pyFloorDiv (a b : ℚ) : ℚ := ((⌊a / b⌋ : ℤ) : ℚ)

/-- Python float `%` (sign of the right operand, here positive). -/
def pyMod (a b : ℚ) : ℚ := a - b * ((⌊a / b⌋ : ℤ) : ℚ)

def zeroPadTo (w : ℕ) (ds : Chars) : Chars :=
  List.replicate (w - ds.length) '0' ++ ds

/-- Python `f"{n:02d}"`: minimum width 2, zero-padded after the sign. -/
def format02d (n : ℤ) : Chars :=
  if n < 0 then '-' :: zeroPadTo 1 (Nat.toDigits 10 n.natAbs)
  else zeroPadTo 2 (Nat.toDigits 10 n.natAbs)

/-- The `[MM:SS]` label `save_as_pdf` computes:
`minutes = int(start // 60)`, `seconds = int(start % 60)`. -/
def pdfTimestampLabel (start : ℚ) : Chars :=
  '[' :: format02d (pyInt (pyFloorDiv start 60)) ++
    ':' :: format02d (pyInt (pyMod start 60)) ++ (']' :: [])

/-- The paragraph text `save_as_pdf` builds per segment. -/
def pdfParagraph (s : Segment) : Chars :=
  pdfTimestampLabel s.start ++ ' ' :: s.text

/-! ### Orchestrator -/

/-- Externally visible actions of one run: provider calls and file writes. -/
inductive Event where
  | fetchPrimary
  | fetchSecondary
  | writeJson
  | writeTxt
  | writePdf
deriving DecidableEq

/-- How the process ends: `sys.exit` with a code and user-facing message, an
uncaught exception (exit status 1), or a normal return from `main` (exit
status 0) with the final tally message. -/
inductive RunResult where
  | exited (code : ℕ) (msg : Chars)
  | raisedError (msg : Chars)
  | finished (tally : ℕ) (msg : Chars)
deriving DecidableEq

def exitCodeOf : RunResult → ℕ
  | .exited c _ => c
  | .raisedError _ => 1
  | .finished _ _ => 0

def msgNoUrl : Chars := ("No URL provided. Exiting.").toList

def msgInvalidPre : Chars := ("Invalid YouTube URL: ").toList

def msgNoFilename : Chars := ("No filename provided. Exiting.").toList

def msgUnavailable : Chars :=
  ("No transcript or captions available for this video.").toList

def msgAllFailed : Chars := ("Failed to save transcript in any format.").toList

def msgSavedTally (n : ℕ) : Chars :=
  ("Successfully saved ").toList ++ Nat.toDigits 10 n ++ ("/3 formats.").toList

def msgFull : Chars := ("All formats saved successfully!").toList

/-- Everything outside the program that one run observes: the two prompt
inputs, the primary provider's behavior, the secondary provider's caption
tracks, and whether each of the three writers succeeds (writer success
stands for the try/except outcome of the corresponding save). -/
structure Env where
  urlInput : Chars
  filenameInput : Chars
  lang : Chars
  primary : PrimaryResult
  tracks : List (Chars × List XmlEntry)
  jsonOk : Bool
  txtOk : Bool
  pdfOk : Bool

/-- Python truthiness of the chain value `fetch_with_yta(...)`: `None` and an
empty transcript are falsy (`FetchedTranscript` defines `__len__`), a
nonempty transcript is truthy. -/
def pyTruthy : Option (List Segment) → Bool
  | some (_ :: _) => true
  | _ => false

def writerTally (env : Env) : ℕ :=
  (if env.jsonOk then 1 else 0) + (if env.txtOk then 1 else 0) +
    (if env.pdfOk then 1 else 0)

/-- `main`, as a function of the environment: prompt/strip URL, extract the
id, prompt/strip filename, run `fetch_with_yta(...) or fetch_with_pytube(...)`,
abort on `None`, otherwise run all three writers and tally. Returns the event
trace and the process outcome. -/
def mainRun (env : Env) : List Event × RunResult :=
  let url := pyStrip env.urlInput
  if url = [] then ([], .exited 1 msgNoUrl)
  else
    match videoIdFromUrl url with
    | .error e => ([], .exited 1 (msgInvalidPre ++ e))
    | .ok _vid =>
      let filename := pyStrip env.filenameInput
      if filename = [] then ([], .exited 1 msgNoFilename)
      else
        match fetchWithYta env.primary with
        | .error m => ([Event.fetchPrimary], .raisedError m)
        | .ok yta =>
          let fetched : List Event × Option (List Segment) :=
            if pyTruthy yta then ([Event.fetchPrimary], yta)
            else ([Event.fetchPrimary, Event.fetchSecondary],
                  (fetchWithPytube env.tracks [env.lang]).2)
          match fetched.2 with
          | none => (fetched.1, .exited 1 msgUnavailable)
          | some _tl =>
            let evs := fetched.1 ++
              [Event.writeJson, Event.writeTxt, Event.writePdf]
            let n := writerTally env
            if n = 0 then (evs, .exited 1 msgAllFailed)
            else if n < 3 then (evs, .finished n (msgSavedTally n))
            else (evs, .finished n msgFull)

/-! ### Example data used by concrete instances -/

/-- The rational 1.2 (= 6/5), as a reduced fraction literal. -/
def r12 : ℚ := ⟨6, 5, by decide, by decide⟩

/-- The rational 0.8 (= 4/5), as a reduced fraction literal. -/
def r08 : ℚ := ⟨4, 5, by decide, by decide⟩

/-- An 11-character identifier over the regex class `[0-9A-Za-z_-]`. -/
def validId (id : Chars) : Prop := id.length = 11 ∧ id.all idChar = true

instance (id : Chars) : Decidable (validId id) := by
  unfold validId
  infer_instance

/-- Characters that may appear in a modelled short-link path suffix without
changing how `urlsplit` carves the URL: nothing urlsplit removes, no query,
fragment or params delimiter. -/
def plainPathChar (c : Char) : Prop :=
  c ≠ '?' ∧ c ≠ '#' ∧ c ≠ ';' ∧ c ≠ '\t' ∧ c ≠ '\n' ∧ c ≠ '\r'

instance (c : Char) : Decidable (plainPathChar c) := by
  unfold plainPathChar
  infer_instance

def shortStem : Chars := ("https://youtu.be/").toList

def watchStem : Chars := ("https://www.youtube.com/watch?v=").toList

def embedStem : Chars := ("https://www.youtube.com/embed/").toList

def shortsStem : Chars := ("https://www.youtube.com/shorts/").toList

def vStem : Chars := ("https://www.youtube.com/v/").toList

/-- The identifier from the spec's scenario. -/
def dqId : Chars := ("dQw4w9WgXcQ").toList

/-- A short-link URL whose first path segment is a well-formed identifier but
whose path goes on: input for the C1 counterexample. -/
def cexShortUrl : Chars := ("https://youtu.be/dQw4w9WgXcQ/extra").toList

/-- The spec-scenario environment, parameterizable in the provider results
and writer outcomes. -/
def baseEnv (primary : PrimaryResult) (tracks : List (Chars × List XmlEntry))
    (jsonOk txtOk pdfOk : Bool) : Env :=
  ⟨("https://youtu.be/dQw4w9WgXcQ").toList, ("out").toList, ("en").toList,
    primary, tracks, jsonOk, txtOk, pdfOk⟩

/-- Environment for the C4 counterexample: the primary provider succeeds with
a transcript of zero segments. -/
def emptyPrimaryEnv : Env := baseEnv (.fetched []) [] true true true

/-- The two-segment transcript of the spec's scenario, with a non-ASCII
character in the first text to witness Unicode passthrough. -/
def exampleSegs : List Segment :=
  [⟨("héllo").toList, 0, r12⟩, ⟨("world").toList, r12, r08⟩]

/-- The exact file text Python writes for `exampleSegs`
(`\x7b`/`\x7d` are the two brace characters). -/
def exampleJsonText : Chars :=
  ("[\n  \x7b\n    \"text\": \"héllo\",\n    \"start\": 0.0,\n    \"duration\": 1.2\n  \x7d,\n  \x7b\n    \"text\": \"world\",\n    \"start\": 1.2,\n    \"duration\": 0.8\n  \x7d\n]").toList

/-- A one-segment transcript whose text contains a newline: input for the C8
counterexample. -/
def newlineSeg : Segment := ⟨('a' :: '\n' :: 'b' :: []), 0, 0⟩

/-- Caption-track tables for the C3 precedence instance: a human track `en`
and an auto track `a.en`, with distinguishable contents. -/
def enTrack (q1 q2 : ℚ) : List XmlEntry := [⟨q1, q2, (" hello ").toList⟩]

def aenTrack (q1 q2 : ℚ) : List XmlEntry := [⟨q1, q2, (" auto ").toList⟩]

/-! ### Generic helper lemmas about the character-list machinery -/

theorem splitAtFirst_none_all (p : Char → Bool) (l : Chars)
    (h : ∀ c ∈ l, p c = false) : splitAtFirst p l = (l, none) := by
  induction l with
  | nil => rfl
  | cons c cs ih =>
    have hc : p c = false := h c (List.mem_cons_self c cs)
    have ih2 := ih (fun a ha => h a (List.mem_cons_of_mem c ha))
    simp [splitAtFirst, hc, ih2]

theorem splitAtFirst_append_found (p : Char → Bool) (xs ys : Chars) (c : Char)
    (hxs : ∀ a ∈ xs, p a = false) (hc : p c = true) :
    splitAtFirst p (xs ++ c :: ys) = (xs, some ys) := by
  induction xs with
  | nil => simp [splitAtFirst, hc]
  | cons x xs ih =>
    have hx : p x = false := hxs x (List.mem_cons_self x xs)
    have ih2 := ih (fun a ha => hxs a (List.mem_cons_of_mem x ha))
    simp [splitAtFirst, hx, ih2]

theorem takeWhile_append_stop (p : Char → Bool) (xs ys : Chars) (c : Char)
    (hxs : ∀ a ∈ xs, p a = true) (hc : p c = false) :
    (xs ++ c :: ys).takeWhile p = xs := by
  induction xs with
  | nil => simp [List.takeWhile_cons, hc]
  | cons x xs ih =>
    have hx : p x = true := hxs x (List.mem_cons_self x xs)
    have ih2 := ih (fun a ha => hxs a (List.mem_cons_of_mem x ha))
    simp [List.takeWhile_cons, hx, ih2]

theorem dropWhile_append_stop (p : Char → Bool) (xs ys : Chars) (c : Char)
    (hxs : ∀ a ∈ xs, p a = true) (hc : p c = false) :
    (xs ++ c :: ys).dropWhile p = c :: ys := by
  induction xs with
  | nil => simp [List.dropWhile_cons, hc]
  | cons x xs ih =>
    have hx : p x = true := hxs x (List.mem_cons_self x xs)
    have ih2 := ih (fun a ha => hxs a (List.mem_cons_of_mem x ha))
    simp [List.dropWhile_cons, hx, ih2]

theorem removeUnsafeBytes_eq_self (l : Chars)
    (h : ∀ c ∈ l, isTabNl c = false) : removeUnsafeBytes l = l := by
  refine List.filter_eq_self.mpr (fun a ha => ?_)
  rw [h a ha]
  rfl

theorem splitOnChar_no_sep (sep : Char) (l : Chars)
    (h : ∀ c ∈ l, (c == sep) = false) : splitOnChar sep l = [l] := by
  induction l with
  | nil => rfl
  | cons c cs ih =>
    have hc : (c == sep) = false := h c (List.mem_cons_self c cs)
    have ih2 := ih (fun a ha => h a (List.mem_cons_of_mem c ha))
    simp [splitOnChar, hc, ih2]

theorem pctDecode_id (l : Chars) (h : ∀ c ∈ l, (c == '%') = false) :
    pctDecode l = l := by
  induction l with
  | nil => rw [pctDecode.eq_1]
  | cons c cs ih =>
    have hc : (c == '%') = false := h c (List.mem_cons_self c cs)
    have hcne : ¬(c = '%') := by
      intro he
      rw [he] at hc
      simp at hc
    have ih2 := ih (fun a ha => h a (List.mem_cons_of_mem c ha))
    cases cs with
    | nil =>
      simp only [pctDecode]
      rw [if_neg hcne]
    | cons d ds =>
      cases ds with
      | nil =>
        have hd : (d == '%') = false := h d (by simp)
        have hdne : ¬(d = '%') := by
          intro he
          rw [he] at hd
          simp at hd
        simp only [pctDecode]
        rw [if_neg hcne, if_neg hdne]
      | cons e es =>
        simp only [pctDecode]
        rw [if_neg hcne, ih2]

theorem map_plusToSpace_id (l : Chars) (h : ∀ c ∈ l, (c == '+') = false) :
    l.map plusToSpace = l := by
  induction l with
  | nil => rfl
  | cons c cs ih =>
    have hc : (c == '+') = false := h c (List.mem_cons_self c cs)
    have hcne : ¬(c = '+') := by
      intro he
      rw [he] at hc
      simp at hc
    have ih2 := ih (fun a ha => h a (List.mem_cons_of_mem c ha))
    simp [plusToSpace, hcne, ih2]

theorem unquotePlus_id (l : Chars)
    (h : ∀ c ∈ l, (c == '%') = false ∧ (c == '+') = false) :
    unquotePlus l = l := by
  rw [unquotePlus, map_plusToSpace_id l (fun c hc => (h c hc).2),
    pctDecode_id l (fun c hc => (h c hc).1)]

theorem idChar_not_bad (c d : Char) (h : idChar c = true)
    (hd : idChar d = false) : (c == d) = false := by
  cases hbe : c == d with
  | false => rfl
  | true =>
    have he : c = d := eq_of_beq hbe
    rw [he] at h
    rw [h] at hd
    exact absurd hd (by simp)

theorem idChar_not_tabnl (c : Char) (h : idChar c = true) :
    isTabNl c = false := by
  simp [isTabNl, idChar_not_bad c '\t' h (by decide),
    idChar_not_bad c '\n' h (by decide), idChar_not_bad c '\r' h (by decide)]

theorem tryAt_of_markerRest_none (l : Chars) (h : markerRest l = none) :
    tryAt l = none := by
  simp [tryAt, h]

theorem isPrefixOf_append_of_le (pat xs ys : Chars)
    (h : pat.length ≤ xs.length) :
    pat.isPrefixOf (xs ++ ys) = pat.isPrefixOf xs := by
  induction pat generalizing xs with
  | nil => simp [List.isPrefixOf]
  | cons p ps ih =>
    cases xs with
    | nil => simp at h
    | cons x xs2 =>
      have h2 : ps.length ≤ xs2.length := by
        simp [List.length_cons] at h
        omega
      simp [List.isPrefixOf, ih xs2 h2]

theorem markerRest_none7 (c1 c2 c3 c4 c5 c6 c7 : Char) (rest : Chars)
    (h : markerRest [c1, c2, c3, c4, c5, c6, c7] = none) :
    markerRest (c1 :: c2 :: c3 :: c4 :: c5 :: c6 :: c7 :: rest) = none := by
  have e : c1 :: c2 :: c3 :: c4 :: c5 :: c6 :: c7 :: rest =
      [c1, c2, c3, c4, c5, c6, c7] ++ rest := rfl
  rw [e]
  rw [markerRest] at h ⊢
  rw [show (("embed/").toList) = ('e' :: 'm' :: 'b' :: 'e' :: 'd' :: '/' :: []) from rfl,
    show (("v/").toList) = ('v' :: '/' :: []) from rfl,
    show (("shorts/").toList) = ('s' :: 'h' :: 'o' :: 'r' :: 't' :: 's' :: '/' :: []) from rfl] at h ⊢
  rw [isPrefixOf_append_of_le _ _ _ (by simp),
    isPrefixOf_append_of_le _ _ _ (by simp),
    isPrefixOf_append_of_le _ _ _ (by simp)]
  split_ifs at h ⊢
  all_goals simp_all

theorem reSearchId_cons_of_none (c : Char) (cs : Chars)
    (h : tryAt (c :: cs) = none) : reSearchId (c :: cs) = reSearchId cs := by
  simp [reSearchId, h]

theorem reSearchId_append_skip (xs ys : Chars)
    (h : ∀ n, n < xs.length → tryAt (xs.drop n ++ ys) = none) :
    reSearchId (xs ++ ys) = reSearchId ys := by
  induction xs with
  | nil => rfl
  | cons x xs2 ih =>
    have h0 : tryAt (x :: (xs2 ++ ys)) = none := by
      have := h 0 (by simp only [List.length_cons]; omega)
      simpa using this
    rw [List.cons_append, reSearchId_cons_of_none _ _ h0]
    exact ih (fun n hn => by
      have := h (n + 1) (by simp only [List.length_cons]; omega)
      simpa using this)

theorem urlparse_https (nl tail : Chars)
    (hnl : ∀ c ∈ nl, notNetlocDelim c = true ∧ isTabNl c = false)
    (htail : ∀ c ∈ tail, isTabNl c = false) :
    urlparse (("https://").toList ++ (nl ++ '/' :: tail)) =
      ⟨("https").toList, nl,
        (splitParams (splitQuery (splitHashFrag ('/' :: tail)).1).1).1,
        (splitParams (splitQuery (splitHashFrag ('/' :: tail)).1).1).2,
        (splitQuery (splitHashFrag ('/' :: tail)).1).2,
        (splitHashFrag ('/' :: tail)).2⟩ := by
  have hsan1 :
      lstripControlSpace (("https://").toList ++ (nl ++ '/' :: tail)) =
        ("https://").toList ++ (nl ++ '/' :: tail) := by
    rw [show ("https://").toList ++ (nl ++ '/' :: tail) =
      'h' :: (("ttps://").toList ++ (nl ++ '/' :: tail)) from rfl]
    simp only [lstripControlSpace, List.dropWhile_cons]
    rw [show isC0OrSpace 'h' = false from rfl]
    simp
  have hsan2 :
      removeUnsafeBytes (("https://").toList ++ (nl ++ '/' :: tail)) =
        ("https://").toList ++ (nl ++ '/' :: tail) := by
    refine removeUnsafeBytes_eq_self _ (fun c hc => ?_)
    rcases List.mem_append.mp hc with h | h
    · exact (by decide : ∀ c ∈ ("https://").toList, isTabNl c = false) c h
    · rcases List.mem_append.mp h with h2 | h2
      · exact (hnl c h2).2
      · rcases List.mem_cons.mp h2 with h3 | h3
        · rw [h3]
          decide
        · exact htail c h3
  have hsp : splitAtFirst (fun c => c == ':')
      (("https://").toList ++ (nl ++ '/' :: tail)) =
      (('h' :: 't' :: 't' :: 'p' :: 's' :: []),
        some ('/' :: '/' :: (nl ++ '/' :: tail))) := by
    rw [show ("https://").toList ++ (nl ++ '/' :: tail) =
      ('h' :: 't' :: 't' :: 'p' :: 's' :: []) ++
        ':' :: ('/' :: '/' :: (nl ++ '/' :: tail)) from rfl]
    exact splitAtFirst_append_found _ _ _ _ (by decide) (by decide)
  have hscheme : splitScheme (("https://").toList ++ (nl ++ '/' :: tail)) =
      (("https").toList, '/' :: '/' :: (nl ++ '/' :: tail)) := by
    simp only [splitScheme, hsp]
    rw [if_pos (by decide)]
    rw [show asciiLower ('h' :: 't' :: 't' :: 'p' :: 's' :: []) =
      ("https").toList from by decide]
  have hnet : splitNetloc ('/' :: '/' :: (nl ++ '/' :: tail)) =
      (nl, '/' :: tail) := by
    simp only [splitNetloc]
    rw [takeWhile_append_stop notNetlocDelim nl tail '/'
        (fun a ha => (hnl a ha).1) (by decide),
      dropWhile_append_stop notNetlocDelim nl tail '/'
        (fun a ha => (hnl a ha).1) (by decide)]
  simp only [urlparse, hsan1, hsan2, hscheme, hnet]

theorem contains_eq_false_of (l : Chars) (a : Char)
    (h : ∀ c ∈ l, (c == a) = false) : l.contains a = false := by
  rw [Bool.eq_false_iff]
  intro htrue
  have hmem : a ∈ l := by simpa [List.contains] using htrue
  have := h a hmem
  simp at this

theorem splitHashFrag_no (u : Chars) (h : ∀ c ∈ u, (c == '#') = false) :
    splitHashFrag u = (u, []) := by
  simp [splitHashFrag, splitAtFirst_none_all _ u h]

theorem splitQuery_no (u : Chars) (h : ∀ c ∈ u, (c == '?') = false) :
    splitQuery u = (u, []) := by
  simp [splitQuery, splitAtFirst_none_all _ u h]

theorem splitQuery_found (xs ys : Chars) (h : ∀ c ∈ xs, (c == '?') = false) :
    splitQuery (xs ++ '?' :: ys) = (xs, ys) := by
  simp [splitQuery, splitAtFirst_append_found _ xs ys '?' h (by decide)]

theorem splitParams_no (p : Chars) (h : ∀ c ∈ p, (c == ';') = false) :
    splitParams p = (p, []) := by
  rw [splitParams, contains_eq_false_of p ';' h]
  simp

theorem plain_not_tabnl (c : Char) (h : plainPathChar c) : isTabNl c = false := by
  obtain ⟨_, _, _, h4, h5, h6⟩ := h
  simp [isTabNl, h4, h5, h6]

theorem validId_mem (id : Chars) (h : validId id) :
    ∀ c ∈ id, idChar c = true :=
  fun c hc => List.all_eq_true.mp h.2 c hc

theorem validId_ne_nil (id : Chars) (h : validId id) : id.isEmpty = false := by
  cases id with
  | nil => exact absurd h.1 (by decide)
  | cons a l => rfl

theorem parseQsl_v (id : Chars) (h : validId id) :
    parseQsl ('v' :: '=' :: id) = [((("v").toList), id)] := by
  have hno : ∀ c ∈ ('v' :: '=' :: id), (c == '&') = false := by
    intro c hc
    rcases List.mem_cons.mp hc with h1 | h1
    · rw [h1]
      decide
    · rcases List.mem_cons.mp h1 with h2 | h2
      · rw [h2]
        decide
      · exact idChar_not_bad c '&' (validId_mem id h c h2) (by decide)
  have hsp : splitAtFirst (fun c => c == '=') ('v' :: '=' :: id) =
      (['v'], some id) := by
    rw [show ('v' :: '=' :: id) = ['v'] ++ '=' :: id from rfl]
    exact splitAtFirst_append_found _ _ _ _ (by decide) (by decide)
  have huq : unquotePlus id = id := by
    refine unquotePlus_id id (fun c hc => ?_)
    exact ⟨idChar_not_bad c '%' (validId_mem id h c hc) (by decide),
      idChar_not_bad c '+' (validId_mem id h c hc) (by decide)⟩
  have huqv : unquotePlus ['v'] = ['v'] := by
    refine unquotePlus_id ['v'] (fun c hc => ?_)
    rcases List.mem_singleton.mp hc with h1
    rw [h1]
    exact ⟨by decide, by decide⟩
  rw [parseQsl, splitOnChar_no_sep '&' _ hno]
  simp only [List.foldr_cons, List.foldr_nil, hsp]
  rw [show ('v' :: '=' :: id).isEmpty = false from rfl]
  simp only [Bool.false_eq_true, if_false, validId_ne_nil id h, huq, huqv]
  rfl

theorem videoIdFromUrl_watch (id : Chars) (h : validId id) :
    videoIdFromUrl (watchStem ++ id) = .ok id := by
  have htail : ∀ c ∈ (("watch?v=").toList ++ id), isTabNl c = false := by
    intro c hc
    rcases List.mem_append.mp hc with h1 | h1
    · exact (by decide : ∀ c ∈ ("watch?v=").toList, isTabNl c = false) c h1
    · exact idChar_not_tabnl c (validId_mem id h c h1)
  have hparse := urlparse_https (("www.youtube.com").toList)
    (("watch?v=").toList ++ id) (by decide) htail
  have hfrag : splitHashFrag ('/' :: (("watch?v=").toList ++ id)) =
      ('/' :: (("watch?v=").toList ++ id), []) := by
    refine splitHashFrag_no _ (fun c hc => ?_)
    rcases List.mem_cons.mp hc with h1 | h1
    · rw [h1]
      decide
    · rcases List.mem_append.mp h1 with h2 | h2
      · exact (by decide : ∀ c ∈ ("watch?v=").toList, (c == '#') = false) c h2
      · exact idChar_not_bad c '#' (validId_mem id h c h2) (by decide)
  have hq : splitQuery ('/' :: (("watch?v=").toList ++ id)) =
      (('/' :: 'w' :: 'a' :: 't' :: 'c' :: 'h' :: []), 'v' :: '=' :: id) := by
    rw [show ('/' :: (("watch?v=").toList ++ id)) =
      ('/' :: 'w' :: 'a' :: 't' :: 'c' :: 'h' :: []) ++
        '?' :: ('v' :: '=' :: id) from rfl]
    exact splitQuery_found _ _ (by decide)
  have hpp : splitParams ('/' :: 'w' :: 'a' :: 't' :: 'c' :: 'h' :: []) =
      (('/' :: 'w' :: 'a' :: 't' :: 'c' :: 'h' :: []), []) := by decide
  rw [hfrag] at hparse
  simp only [hq, hpp] at hparse
  rw [show watchStem ++ id = ("https://").toList ++
    ((("www.youtube.com").toList) ++ '/' :: ((("watch?v=").toList) ++ id))
    from rfl]
  simp only [videoIdFromUrl, hparse]
  rw [if_neg (by decide)]
  rw [parseQsl_v id h]
  rw [show List.lookup (("v").toList) [((("v").toList), id)] = some id
    from by simp [List.lookup]]
  rw [show hasSubstr (("watch").toList)
    ('/' :: 'w' :: 'a' :: 't' :: 'c' :: 'h' :: []) = true from by decide]

theorem isPrefixOf_self_append (pat t : Chars) :
    pat.isPrefixOf (pat ++ t) = true := by
  induction pat with
  | nil => simp [List.isPrefixOf]
  | cons p ps ih => simp [List.isPrefixOf, ih]

theorem markerRest_none2 (c1 c2 : Char) (rest : Chars)
    (h1 : (('e' == c1) && ('m' == c2)) = false)
    (h2 : ('v' == c1) = false)
    (h3 : (('s' == c1) && ('h' == c2)) = false) :
    markerRest (c1 :: c2 :: rest) = none := by
  have he : ('e' == c1 &&
      ('m' == c2 && List.isPrefixOf ['b', 'e', 'd', '/'] rest)) = false := by
    cases hb : ('e' == c1) with
    | false => simp
    | true =>
      rw [hb, Bool.true_and] at h1
      simp [h1]
  have hs : ('s' == c1 &&
      ('h' == c2 && List.isPrefixOf ['o', 'r', 't', 's', '/'] rest)) = false := by
    cases hb : ('s' == c1) with
    | false => simp
    | true =>
      rw [hb, Bool.true_and] at h3
      simp [h3]
  rw [markerRest]
  rw [show ("embed/").toList = ('e' :: 'm' :: 'b' :: 'e' :: 'd' :: '/' :: [])
      from rfl,
    show ("v/").toList = ('v' :: '/' :: []) from rfl,
    show ("shorts/").toList =
      ('s' :: 'h' :: 'o' :: 'r' :: 't' :: 's' :: '/' :: []) from rfl]
  simp only [List.isPrefixOf]
  simp [he, hs, h2]

theorem consAppend_no (mid id : Chars) (d : Char) (hslash : ('/' == d) = false)
    (hmid : ∀ c ∈ mid, (c == d) = false) (hid : ∀ c ∈ id, (c == d) = false) :
    ∀ c ∈ ('/' :: (mid ++ id)), (c == d) = false := by
  intro c hc
  rcases List.mem_cons.mp hc with h1 | h1
  · rw [h1]
    exact hslash
  · rcases List.mem_append.mp h1 with h2 | h2
    · exact hmid c h2
    · exact hid c h2

theorem take11_of_validId (id : Chars) (h : validId id) : id.take 11 = id := by
  rw [← h.1]
  exact List.take_length id

theorem tryAt_marker (mid id : Chars) (hm : markerRest (mid ++ id) = some id)
    (h : validId id) : tryAt (mid ++ id) = some id := by
  rw [tryAt, hm]
  have h11 : (decide (11 ≤ id.length) && (id.take 11).all idChar) = true := by
    rw [take11_of_validId id h, h.2, h.1]
    decide
  simp [h11, take11_of_validId id h]
  exact ⟨le_of_eq h.1.symm, validId_mem id h⟩

theorem reSearchId_skip24 (ys : Chars)
    (h : ∀ n, n < 24 →
      tryAt (List.drop n (("https://www.youtube.com/").toList) ++ ys) = none) :
    reSearchId ((("https://www.youtube.com/").toList) ++ ys) =
      reSearchId ys := by
  refine reSearchId_append_skip _ _ (fun n hn => ?_)
  rw [show ((("https://www.youtube.com/").toList)).length = 24 from rfl] at hn
  exact h n hn

theorem videoIdFromUrl_embed (id : Chars) (h : validId id) :
    videoIdFromUrl (embedStem ++ id) = .ok id := by
  have hidmem := validId_mem id h
  have htail : ∀ c ∈ ((("embed/").toList) ++ id), isTabNl c = false := by
    intro c hc
    rcases List.mem_append.mp hc with h1 | h1
    · exact (by decide : ∀ c ∈ ("embed/").toList, isTabNl c = false) c h1
    · exact idChar_not_tabnl c (hidmem c h1)
  have hparse := urlparse_https (("www.youtube.com").toList)
    ((("embed/").toList) ++ id) (by decide) htail
  have hfrag := splitHashFrag_no ('/' :: ((("embed/").toList) ++ id))
    (consAppend_no _ id '#' (by decide) (by decide)
      (fun c hc => idChar_not_bad c '#' (hidmem c hc) (by decide)))
  have hq := splitQuery_no ('/' :: ((("embed/").toList) ++ id))
    (consAppend_no _ id '?' (by decide) (by decide)
      (fun c hc => idChar_not_bad c '?' (hidmem c hc) (by decide)))
  have hpp := splitParams_no ('/' :: ((("embed/").toList) ++ id))
    (consAppend_no _ id ';' (by decide) (by decide)
      (fun c hc => idChar_not_bad c ';' (hidmem c hc) (by decide)))
  simp only [hfrag, hq, hpp] at hparse
  have hsearch : reSearchId ((("https://").toList) ++
      ((("www.youtube.com").toList) ++ '/' :: ((("embed/").toList) ++ id))) =
      some id := by
    rw [show (("https://").toList) ++
      ((("www.youtube.com").toList) ++ '/' :: ((("embed/").toList) ++ id)) =
      (("https://www.youtube.com/").toList) ++ ((("embed/").toList) ++ id)
      from rfl]
    rw [reSearchId_skip24 _ (fun n hn => by
      interval_cases n <;>
        exact tryAt_of_markerRest_none _
          (markerRest_none2 _ _ _ (by simp) (by simp) (by simp)))]
    have hmk : markerRest ((("embed/").toList) ++ id) = some id := by
      rw [markerRest, isPrefixOf_self_append]
      rw [show (6 : ℕ) = (("embed/").toList).length from rfl, List.drop_left]
      simp
    rw [show (("embed/").toList) ++ id =
      'e' :: ('m' :: 'b' :: 'e' :: 'd' :: '/' :: [] ++ id) from rfl]
    rw [reSearchId]
    rw [show 'e' :: ('m' :: 'b' :: 'e' :: 'd' :: '/' :: [] ++ id) =
      (("embed/").toList) ++ id from rfl]
    rw [tryAt_marker _ id hmk h]
  rw [show embedStem ++ id = (("https://").toList) ++
    ((("www.youtube.com").toList) ++ '/' :: ((("embed/").toList) ++ id))
    from rfl]
  simp only [videoIdFromUrl, hparse]
  rw [if_neg (by decide)]
  rw [show List.lookup (("v").toList) (parseQsl []) = none from rfl]
  cases hws : hasSubstr (("watch").toList)
      ('/' :: ((("embed/").toList) ++ id)) with
  | false =>
    rw [hsearch]
  | true =>
    rw [hsearch]

theorem videoIdFromUrl_shorts (id : Chars) (h : validId id) :
    videoIdFromUrl (shortsStem ++ id) = .ok id := by
  have hidmem := validId_mem id h
  have htail : ∀ c ∈ ((("shorts/").toList) ++ id), isTabNl c = false := by
    intro c hc
    rcases List.mem_append.mp hc with h1 | h1
    · exact (by decide : ∀ c ∈ ("shorts/").toList, isTabNl c = false) c h1
    · exact idChar_not_tabnl c (hidmem c h1)
  have hparse := urlparse_https (("www.youtube.com").toList)
    ((("shorts/").toList) ++ id) (by decide) htail
  have hfrag := splitHashFrag_no ('/' :: ((("shorts/").toList) ++ id))
    (consAppend_no _ id '#' (by decide) (by decide)
      (fun c hc => idChar_not_bad c '#' (hidmem c hc) (by decide)))
  have hq := splitQuery_no ('/' :: ((("shorts/").toList) ++ id))
    (consAppend_no _ id '?' (by decide) (by decide)
      (fun c hc => idChar_not_bad c '?' (hidmem c hc) (by decide)))
  have hpp := splitParams_no ('/' :: ((("shorts/").toList) ++ id))
    (consAppend_no _ id ';' (by decide) (by decide)
      (fun c hc => idChar_not_bad c ';' (hidmem c hc) (by decide)))
  simp only [hfrag, hq, hpp] at hparse
  have hmk : markerRest ((("shorts/").toList) ++ id) = some id := by
    have h1 : (("embed/").toList).isPrefixOf ((("shorts/").toList) ++ id) =
        false := by
      rw [show (("embed/").toList) =
          ('e' :: 'm' :: 'b' :: 'e' :: 'd' :: '/' :: []) from rfl,
        show (("shorts/").toList) ++ id =
          's' :: 'h' :: 'o' :: 'r' :: 't' :: 's' :: '/' :: id from rfl]
      simp [List.isPrefixOf]
    have h2 : (("v/").toList).isPrefixOf ((("shorts/").toList) ++ id) =
        false := by
      rw [show (("v/").toList) = ('v' :: '/' :: []) from rfl,
        show (("shorts/").toList) ++ id =
          's' :: 'h' :: 'o' :: 'r' :: 't' :: 's' :: '/' :: id from rfl]
      simp [List.isPrefixOf]
    rw [markerRest, h1, h2, isPrefixOf_self_append]
    rw [show (7 : ℕ) = (("shorts/").toList).length from rfl, List.drop_left]
    simp
  have hsearch : reSearchId ((("https://").toList) ++
      ((("www.youtube.com").toList) ++ '/' :: ((("shorts/").toList) ++ id))) =
      some id := by
    rw [show (("https://").toList) ++
      ((("www.youtube.com").toList) ++ '/' :: ((("shorts/").toList) ++ id)) =
      (("https://www.youtube.com/").toList) ++ ((("shorts/").toList) ++ id)
      from rfl]
    rw [reSearchId_skip24 _ (fun n hn => by
      interval_cases n <;>
        exact tryAt_of_markerRest_none _
          (markerRest_none2 _ _ _ (by simp) (by simp) (by simp)))]
    rw [show (("shorts/").toList) ++ id =
      's' :: ('h' :: 'o' :: 'r' :: 't' :: 's' :: '/' :: [] ++ id) from rfl]
    rw [reSearchId]
    rw [show 's' :: ('h' :: 'o' :: 'r' :: 't' :: 's' :: '/' :: [] ++ id) =
      (("shorts/").toList) ++ id from rfl]
    rw [tryAt_marker _ id hmk h]
  rw [show shortsStem ++ id = (("https://").toList) ++
    ((("www.youtube.com").toList) ++ '/' :: ((("shorts/").toList) ++ id))
    from rfl]
  simp only [videoIdFromUrl, hparse]
  rw [if_neg (by decide)]
  rw [show List.lookup (("v").toList) (parseQsl []) = none from rfl]
  cases hws : hasSubstr (("watch").toList)
      ('/' :: ((("shorts/").toList) ++ id)) with
  | false =>
    rw [hsearch]
  | true =>
    rw [hsearch]

theorem videoIdFromUrl_vpath (id : Chars) (h : validId id) :
    videoIdFromUrl (vStem ++ id) = .ok id := by
  have hidmem := validId_mem id h
  have htail : ∀ c ∈ ((("v/").toList) ++ id), isTabNl c = false := by
    intro c hc
    rcases List.mem_append.mp hc with h1 | h1
    · exact (by decide : ∀ c ∈ ("v/").toList, isTabNl c = false) c h1
    · exact idChar_not_tabnl c (hidmem c h1)
  have hparse := urlparse_https (("www.youtube.com").toList)
    ((("v/").toList) ++ id) (by decide) htail
  have hfrag := splitHashFrag_no ('/' :: ((("v/").toList) ++ id))
    (consAppend_no _ id '#' (by decide) (by decide)
      (fun c hc => idChar_not_bad c '#' (hidmem c hc) (by decide)))
  have hq := splitQuery_no ('/' :: ((("v/").toList) ++ id))
    (consAppend_no _ id '?' (by decide) (by decide)
      (fun c hc => idChar_not_bad c '?' (hidmem c hc) (by decide)))
  have hpp := splitParams_no ('/' :: ((("v/").toList) ++ id))
    (consAppend_no _ id ';' (by decide) (by decide)
      (fun c hc => idChar_not_bad c ';' (hidmem c hc) (by decide)))
  simp only [hfrag, hq, hpp] at hparse
  have hmk : markerRest ((("v/").toList) ++ id) = some id := by
    have h1 : (("embed/").toList).isPrefixOf ((("v/").toList) ++ id) =
        false := by
      rw [show (("embed/").toList) =
          ('e' :: 'm' :: 'b' :: 'e' :: 'd' :: '/' :: []) from rfl,
        show (("v/").toList) ++ id = 'v' :: '/' :: id from rfl]
      simp [List.isPrefixOf]
    rw [markerRest, h1, isPrefixOf_self_append]
    rw [show (2 : ℕ) = (("v/").toList).length from rfl, List.drop_left]
    simp
  have hsearch : reSearchId ((("https://").toList) ++
      ((("www.youtube.com").toList) ++ '/' :: ((("v/").toList) ++ id))) =
      some id := by
    rw [show (("https://").toList) ++
      ((("www.youtube.com").toList) ++ '/' :: ((("v/").toList) ++ id)) =
      (("https://www.youtube.com/").toList) ++ ((("v/").toList) ++ id)
      from rfl]
    rw [reSearchId_skip24 _ (fun n hn => by
      interval_cases n <;>
        exact tryAt_of_markerRest_none _
          (markerRest_none2 _ _ _ (by simp) (by simp) (by simp)))]
    rw [show (("v/").toList) ++ id = 'v' :: ('/' :: [] ++ id) from rfl]
    rw [reSearchId]
    rw [show 'v' :: ('/' :: [] ++ id) = (("v/").toList) ++ id from rfl]
    rw [tryAt_marker _ id hmk h]
  rw [show vStem ++ id = (("https://").toList) ++
    ((("www.youtube.com").toList) ++ '/' :: ((("v/").toList) ++ id))
    from rfl]
  simp only [videoIdFromUrl, hparse]
  rw [if_neg (by decide)]
  rw [show List.lookup (("v").toList) (parseQsl []) = none from rfl]
  cases hws : hasSubstr (("watch").toList) ('/' :: ((("v/").toList) ++ id)) with
  | false =>
    rw [hsearch]
  | true =>
    rw [hsearch]

theorem videoIdFromUrl_shortlink (p : Chars) (hp : ∀ c ∈ p, plainPathChar c) :
    videoIdFromUrl (shortStem ++ p) =
      .ok (p.dropWhile (fun c => c == '/')) := by
  have htail : ∀ c ∈ p, isTabNl c = false :=
    fun c hc => plain_not_tabnl c (hp c hc)
  have hparse := urlparse_https (("youtu.be").toList) p (by decide) htail
  have hfrag := splitHashFrag_no ('/' :: p) (by
    intro c hc
    rcases List.mem_cons.mp hc with h1 | h1
    · rw [h1]
      decide
    · exact beq_eq_false_iff_ne.mpr (hp c h1).2.1)
  have hq := splitQuery_no ('/' :: p) (by
    intro c hc
    rcases List.mem_cons.mp hc with h1 | h1
    · rw [h1]
      decide
    · exact beq_eq_false_iff_ne.mpr (hp c h1).1)
  have hpp := splitParams_no ('/' :: p) (by
    intro c hc
    rcases List.mem_cons.mp hc with h1 | h1
    · rw [h1]
      decide
    · exact beq_eq_false_iff_ne.mpr (hp c h1).2.2.1)
  simp only [hfrag, hq, hpp] at hparse
  rw [show shortStem ++ p =
    (("https://").toList) ++ ((("youtu.be").toList) ++ '/' :: p) from rfl]
  simp only [videoIdFromUrl, hparse]
  rw [if_pos (by decide)]
  simp [List.dropWhile_cons]

theorem videoIdFromUrl_nomatch (url : Chars)
    (h1 : ¬(hostnameOf (urlparse url).netloc = some (("youtu.be").toList)))
    (h2 : hasSubstr (("watch").toList) (urlparse url).path = false ∨
      List.lookup (("v").toList) (parseQsl (urlparse url).query) = none)
    (h3 : reSearchId url = none) :
    videoIdFromUrl url = .error msgInvalidUrl := by
  simp only [videoIdFromUrl]
  rw [if_neg h1]
  rcases h2 with h2 | h2
  · rw [h2]
    simp [h3]
  · rw [h2]
    cases hws : hasSubstr (("watch").toList) (urlparse url).path with
    | false => simp [h3]
    | true => simp [h3]

/-! ### Claim C1 -/

/-- Claim C1 counterexample: on the short-link URL
`https://youtu.be/dQw4w9WgXcQ/extra` — a URL of the short-link shape whose
path segment immediately following the host is the identifier
`dQw4w9WgXcQ` — `video_id_from_url` returns the whole remaining path
`dQw4w9WgXcQ/extra`, not the exact identifier token the claim promises. -/
theorem c1_counterexample :
    videoIdFromUrl cexShortUrl = .ok (("dQw4w9WgXcQ/extra").toList) ∧
    ¬(videoIdFromUrl cexShortUrl = .ok dqId) := by
  decide

/-- Claim C1 (amended): for the short-link host shape the function returns
the parsed path with all leading slashes stripped, verbatim and unvalidated;
for the watch shape with a `v` query parameter, and for the
embed//v//shorts/ shapes with an 11-character `[0-9A-Za-z_-]` token, it
returns the exact identifier, in that order of precedence; for URLs
satisfying none of the three checks it fails with `ValueError` carrying a
diagnostic message. -/
theorem c1_amended :
    (∀ p : Chars, (∀ c ∈ p, plainPathChar c) →
      videoIdFromUrl (shortStem ++ p) =
        .ok (p.dropWhile (fun c => c == '/'))) ∧
    (∀ id : Chars, validId id →
      videoIdFromUrl (watchStem ++ id) = .ok id) ∧
    (∀ id : Chars, validId id →
      videoIdFromUrl (embedStem ++ id) = .ok id) ∧
    (∀ id : Chars, validId id →
      videoIdFromUrl (shortsStem ++ id) = .ok id) ∧
    (∀ id : Chars, validId id →
      videoIdFromUrl (vStem ++ id) = .ok id) ∧
    (∀ url : Chars,
      ¬(hostnameOf (urlparse url).netloc = some (("youtu.be").toList)) →
      (hasSubstr (("watch").toList) (urlparse url).path = false ∨
        List.lookup (("v").toList) (parseQsl (urlparse url).query) = none) →
      reSearchId url = none →
      videoIdFromUrl url = .error msgInvalidUrl) :=
  ⟨videoIdFromUrl_shortlink, videoIdFromUrl_watch, videoIdFromUrl_embed,
    videoIdFromUrl_shorts, videoIdFromUrl_vpath, videoIdFromUrl_nomatch⟩

/-- Witness for the amended C1 at concrete inputs. -/
theorem c1_amended_witness :
    videoIdFromUrl (watchStem ++ dqId) = .ok dqId ∧
    videoIdFromUrl (embedStem ++ dqId) = .ok dqId ∧
    videoIdFromUrl (shortsStem ++ dqId) = .ok dqId ∧
    videoIdFromUrl (vStem ++ dqId) = .ok dqId ∧
    videoIdFromUrl (shortStem ++ (("abc").toList)) =
      .ok (((("abc").toList)).dropWhile (fun c => c == '/')) :=
  ⟨c1_amended.2.1 dqId (by decide), c1_amended.2.2.1 dqId (by decide),
    c1_amended.2.2.2.1 dqId (by decide), c1_amended.2.2.2.2.1 dqId (by decide),
    c1_amended.1 (("abc").toList) (by decide)⟩

/-! ### Claim C10 -/

/-- Claim C10: for short-link-host URLs the function returns the parsed
path with leading slashes stripped, verbatim and without validation — not
checked for length 11 or identifier characters, further path segments and
slashes included — and the empty path yields the empty string rather than
an `InvalidUrl` failure. -/
theorem c10_shortlink_verbatim :
    (∀ p : Chars, (∀ c ∈ p, plainPathChar c) →
      videoIdFromUrl (shortStem ++ p) =
        .ok (p.dropWhile (fun c => c == '/'))) ∧
    videoIdFromUrl (("https://youtu.be/").toList) = .ok [] ∧
    videoIdFromUrl (("https://youtu.be/abc").toList) = .ok (("abc").toList) ∧
    videoIdFromUrl (("https://youtu.be/not11!!chars@@").toList) =
      .ok (("not11!!chars@@").toList) ∧
    videoIdFromUrl (("https://youtu.be/dQw4w9WgXcQ/extra").toList) =
      .ok (("dQw4w9WgXcQ/extra").toList) :=
  ⟨videoIdFromUrl_shortlink, by decide, by decide, by decide, by decide⟩

/-- Witness for C10's universally quantified conjunct. -/
theorem c10_shortlink_verbatim_witness :
    videoIdFromUrl (shortStem ++ (("x/y/z").toList)) =
      .ok (((("x/y/z").toList)).dropWhile (fun c => c == '/')) :=
  c10_shortlink_verbatim.1 (("x/y/z").toList) (by decide)

/-! ### Claim C2 -/

/-- Claim C2: when the primary provider reports `TranscriptsDisabled` or
`NoTranscriptFound`, the run does not fail there — the secondary provider is
consulted and no exception propagates from the fetch; any other exception
from the primary provider propagates as a hard error and the secondary
provider is never invoked. -/
theorem c2_soft_miss_fallback (env : Env)
    (h1 : ¬(pyStrip env.urlInput = []))
    (h2 : ∃ v, videoIdFromUrl (pyStrip env.urlInput) = Except.ok v)
    (h3 : ¬(pyStrip env.filenameInput = [])) :
    ((env.primary = .transcriptsDisabled ∨ env.primary = .noTranscriptFound) →
      Event.fetchSecondary ∈ (mainRun env).1 ∧
        ∀ m, ¬((mainRun env).2 = .raisedError m)) ∧
    (∀ m, env.primary = .raised m →
      (mainRun env).2 = .raisedError m ∧
        ¬(Event.fetchSecondary ∈ (mainRun env).1)) := by
  obtain ⟨v, hv⟩ := h2
  constructor
  · intro hp
    have hyta : fetchWithYta env.primary = .ok none := by
      rcases hp with hp | hp <;> (rw [hp]; rfl)
    simp only [mainRun, if_neg h1, hv, if_neg h3, hyta]
    rw [show pyTruthy none = false from rfl]
    simp only [Bool.false_eq_true, if_false]
    cases hpt : (fetchWithPytube env.tracks [env.lang]).2 with
    | none => simp
    | some tl =>
      constructor
      · split_ifs <;> simp
      · intro m
        split_ifs <;> simp
  · intro m hp
    have hyta : fetchWithYta env.primary = .error m := by
      rw [hp]
      rfl
    simp only [mainRun, if_neg h1, hv, if_neg h3, hyta]
    constructor
    · trivial
    · simp

/-- Witness for C2: a run whose primary provider reports disabled
transcripts falls through to the secondary provider. -/
theorem c2_soft_miss_fallback_witness :
    Event.fetchSecondary ∈
      (mainRun (baseEnv .transcriptsDisabled [] true true true)).1 :=
  ((c2_soft_miss_fallback (baseEnv .transcriptsDisabled [] true true true)
    (by decide) ⟨dqId, by decide⟩ (by decide)).1 (Or.inl rfl)).1

/-! ### Claim C4 -/

/-- Claim C4 counterexample: a run in which the primary provider succeeds
with a transcript of zero segments: the empty transcript is falsy in the
`fetch_with_yta(...) or fetch_with_pytube(...)` chain, so the secondary
provider is invoked even though the primary succeeded. -/
theorem c4_counterexample :
    emptyPrimaryEnv.primary = .fetched [] ∧
    Event.fetchSecondary ∈ (mainRun emptyPrimaryEnv).1 := by
  constructor
  · rfl
  · decide

/-- Claim C4 (amended): when the primary provider succeeds with a nonempty
transcript the chain stops there — the event trace is exactly one primary
fetch followed by the three writes, with the secondary provider never
invoked; a successful primary result with zero segments instead falls
through to the secondary provider. -/
theorem c4_amended (env : Env) (segs : List Segment)
    (h1 : ¬(pyStrip env.urlInput = []))
    (h2 : ∃ v, videoIdFromUrl (pyStrip env.urlInput) = Except.ok v)
    (h3 : ¬(pyStrip env.filenameInput = []))
    (h4 : env.primary = .fetched segs) :
    (¬(segs = []) →
      (mainRun env).1 =
        [Event.fetchPrimary, Event.writeJson, Event.writeTxt,
          Event.writePdf]) ∧
    (segs = [] → Event.fetchSecondary ∈ (mainRun env).1) := by
  obtain ⟨v, hv⟩ := h2
  have hyta : fetchWithYta env.primary = .ok (some segs) := by
    rw [h4]
    rfl
  constructor
  · intro hne
    have htr : pyTruthy (some segs) = true := by
      cases segs with
      | nil => exact absurd rfl hne
      | cons a l => rfl
    simp only [mainRun, if_neg h1, hv, if_neg h3, hyta, htr, if_true]
    split_ifs <;> rfl
  · intro hemp
    rw [hemp] at hyta
    simp only [mainRun, if_neg h1, hv, if_neg h3, hyta]
    rw [show pyTruthy (some []) = false from rfl]
    simp only [Bool.false_eq_true, if_false]
    cases hpt : (fetchWithPytube env.tracks [env.lang]).2 with
    | none => simp
    | some tl =>
      split_ifs <;> simp

/-- Witness for the amended C4: a nonempty primary success reaches writing
without consulting the secondary provider. -/
theorem c4_amended_witness :
    (mainRun (baseEnv (.fetched [⟨("x").toList, 0, r12⟩]) [] true true true)).1 =
      [Event.fetchPrimary, Event.writeJson, Event.writeTxt, Event.writePdf] :=
  (c4_amended (baseEnv (.fetched [⟨("x").toList, 0, r12⟩]) [] true true true)
    [⟨("x").toList, 0, r12⟩] (by decide) ⟨dqId, by decide⟩ (by decide) rfl).1
    (by simp)

/-! ### Claim C5 -/

/-- Claim C5: in every run that reaches the Writing phase, all three format
writers are invoked regardless of the three writers' outcomes; zero
successes exits nonzero with the failure message, one or two successes ends
normally (exit 0) with the partial-success tally message, and three
successes ends normally with the full-success message. -/
theorem c5_writing_tally (env : Env) (tl : List Segment)
    (h1 : ¬(pyStrip env.urlInput = []))
    (h2 : ∃ v, videoIdFromUrl (pyStrip env.urlInput) = Except.ok v)
    (h3 : ¬(pyStrip env.filenameInput = []))
    (h4 : ∃ yta, fetchWithYta env.primary = .ok yta ∧
      (if pyTruthy yta then yta
        else (fetchWithPytube env.tracks [env.lang]).2) = some tl) :
    (Event.writeJson ∈ (mainRun env).1 ∧ Event.writeTxt ∈ (mainRun env).1 ∧
      Event.writePdf ∈ (mainRun env).1) ∧
    (writerTally env = 0 →
      (mainRun env).2 = .exited 1 msgAllFailed ∧
        ¬(exitCodeOf (mainRun env).2 = 0)) ∧
    (1 ≤ writerTally env → writerTally env ≤ 2 →
      (mainRun env).2 =
          .finished (writerTally env) (msgSavedTally (writerTally env)) ∧
        exitCodeOf (mainRun env).2 = 0) ∧
    (writerTally env = 3 →
      (mainRun env).2 = .finished 3 msgFull ∧
        exitCodeOf (mainRun env).2 = 0) := by
  obtain ⟨v, hv⟩ := h2
  obtain ⟨yta, hyta, hchain⟩ := h4
  cases htr : pyTruthy yta with
  | true =>
    rw [htr, if_pos rfl] at hchain
    subst hchain
    simp only [mainRun, if_neg h1, hv, if_neg h3, hyta, htr,
      eq_self_iff_true, if_true]
    refine ⟨by split_ifs <;> simp, fun h0 => ?_, fun hge hle => ?_,
      fun h3t => ?_⟩
    · rw [if_pos h0]
      exact ⟨rfl, by simp [exitCodeOf]⟩
    · have hne : ¬(writerTally env = 0) := by omega
      have hlt : writerTally env < 3 := by omega
      rw [if_neg hne, if_pos hlt]
      exact ⟨rfl, rfl⟩
    · have hne : ¬(writerTally env = 0) := by omega
      have hnlt : ¬(writerTally env < 3) := by omega
      rw [if_neg hne, if_neg hnlt]
      refine ⟨?_, rfl⟩
      rw [h3t]
  | false =>
    rw [htr] at hchain
    simp only [Bool.false_eq_true, if_false] at hchain
    simp only [mainRun, if_neg h1, hv, if_neg h3, hyta, htr,
      Bool.false_eq_true, if_false, hchain]
    refine ⟨by split_ifs <;> simp, fun h0 => ?_, fun hge hle => ?_,
      fun h3t => ?_⟩
    · rw [if_pos h0]
      exact ⟨rfl, by simp [exitCodeOf]⟩
    · have hne : ¬(writerTally env = 0) := by omega
      have hlt : writerTally env < 3 := by omega
      rw [if_neg hne, if_pos hlt]
      exact ⟨rfl, rfl⟩
    · have hne : ¬(writerTally env = 0) := by omega
      have hnlt : ¬(writerTally env < 3) := by omega
      rw [if_neg hne, if_neg hnlt]
      refine ⟨?_, rfl⟩
      rw [h3t]

/-- Witness for C5: the spec's partial-success scenario — structured-data
and text writers succeed, the document writer fails — ends normally with
the `2/3` tally message. -/
theorem c5_writing_tally_witness :
    (mainRun (baseEnv (.fetched [⟨("x").toList, 0, 0⟩]) [] true true false)).2 =
        .finished 2 (msgSavedTally 2) ∧
      exitCodeOf
        (mainRun (baseEnv (.fetched [⟨("x").toList, 0, 0⟩]) [] true true false)).2 =
        0 :=
  (c5_writing_tally (baseEnv (.fetched [⟨("x").toList, 0, 0⟩]) [] true true false)
    [⟨("x").toList, 0, 0⟩] (by decide) ⟨dqId, by decide⟩ (by decide)
    ⟨some [⟨("x").toList, 0, 0⟩], rfl, rfl⟩).2.2.1 (by decide) (by decide)

/-! ### Claim C6 -/

/-- Claim C6: every run that aborts before the Writing phase — empty URL,
unparseable URL, empty filename, or both providers yielding no transcript —
exits with status 1 carrying a nonempty user-facing message, and no write is
attempted (no write event occurs, so no output file is created). -/
theorem c6_abort_paths (env : Env) :
    (pyStrip env.urlInput = [] →
      (∃ m, (mainRun env).2 = .exited 1 m ∧ ¬(m = [])) ∧
      ¬(Event.writeJson ∈ (mainRun env).1) ∧
      ¬(Event.writeTxt ∈ (mainRun env).1) ∧
      ¬(Event.writePdf ∈ (mainRun env).1)) ∧
    (¬(pyStrip env.urlInput = []) →
      ∀ e, videoIdFromUrl (pyStrip env.urlInput) = .error e →
      (∃ m, (mainRun env).2 = .exited 1 m ∧ ¬(m = [])) ∧
      ¬(Event.writeJson ∈ (mainRun env).1) ∧
      ¬(Event.writeTxt ∈ (mainRun env).1) ∧
      ¬(Event.writePdf ∈ (mainRun env).1)) ∧
    (¬(pyStrip env.urlInput = []) →
      (∃ v, videoIdFromUrl (pyStrip env.urlInput) = Except.ok v) →
      pyStrip env.filenameInput = [] →
      (∃ m, (mainRun env).2 = .exited 1 m ∧ ¬(m = [])) ∧
      ¬(Event.writeJson ∈ (mainRun env).1) ∧
      ¬(Event.writeTxt ∈ (mainRun env).1) ∧
      ¬(Event.writePdf ∈ (mainRun env).1)) ∧
    (¬(pyStrip env.urlInput = []) →
      (∃ v, videoIdFromUrl (pyStrip env.urlInput) = Except.ok v) →
      ¬(pyStrip env.filenameInput = []) →
      ∀ yta, fetchWithYta env.primary = .ok yta →
      (if pyTruthy yta then yta
        else (fetchWithPytube env.tracks [env.lang]).2) = none →
      (∃ m, (mainRun env).2 = .exited 1 m ∧ ¬(m = [])) ∧
      ¬(Event.writeJson ∈ (mainRun env).1) ∧
      ¬(Event.writeTxt ∈ (mainRun env).1) ∧
      ¬(Event.writePdf ∈ (mainRun env).1)) := by
  refine ⟨fun h => ?_, fun h1 e he => ?_, fun h1 h2 h3 => ?_,
    fun h1 h2 h3 yta hyta hchain => ?_⟩
  · simp only [mainRun, if_pos h]
    exact ⟨⟨msgNoUrl, rfl, by decide⟩, by simp, by simp, by simp⟩
  · simp only [mainRun, if_neg h1, he]
    refine ⟨⟨msgInvalidPre ++ e, rfl, by simp [msgInvalidPre]⟩,
      by simp, by simp, by simp⟩
  · obtain ⟨v, hv⟩ := h2
    simp only [mainRun, if_neg h1, hv, if_pos h3]
    exact ⟨⟨msgNoFilename, rfl, by decide⟩, by simp, by simp, by simp⟩
  · obtain ⟨v, hv⟩ := h2
    cases htr : pyTruthy yta with
    | true =>
      rw [htr, if_pos rfl] at hchain
      subst hchain
      simp only [mainRun, if_neg h1, hv, if_neg h3, hyta, htr,
        eq_self_iff_true, if_true]
      exact ⟨⟨msgUnavailable, rfl, by decide⟩, by simp, by simp, by simp⟩
    | false =>
      rw [htr] at hchain
      simp only [Bool.false_eq_true, if_false] at hchain
      simp only [mainRun, if_neg h1, hv, if_neg h3, hyta, htr,
        Bool.false_eq_true, if_false, hchain]
      exact ⟨⟨msgUnavailable, rfl, by decide⟩, by simp, by simp, by simp⟩

/-- Witness for C6: the both-providers-empty scenario exits with status 1
and a nonempty message without attempting any write. -/
theorem c6_abort_paths_witness :
    (∃ m, (mainRun (baseEnv .transcriptsDisabled [] true true true)).2 =
        .exited 1 m ∧ ¬(m = [])) ∧
    ¬(Event.writeJson ∈
      (mainRun (baseEnv .transcriptsDisabled [] true true true)).1) ∧
    ¬(Event.writeTxt ∈
      (mainRun (baseEnv .transcriptsDisabled [] true true true)).1) ∧
    ¬(Event.writePdf ∈
      (mainRun (baseEnv .transcriptsDisabled [] true true true)).1) :=
  (c6_abort_paths (baseEnv .transcriptsDisabled [] true true true)).2.2.2
    (by decide) ⟨dqId, by decide⟩ (by decide) none rfl rfl

theorem scanTracks_found (tracks : List (Chars × List XmlEntry))
    (pre : List Chars) (code : Chars) (post : List Chars)
    (xml : List XmlEntry)
    (hpre : ∀ c ∈ pre, List.lookup c tracks = none)
    (hcode : List.lookup code tracks = some xml) :
    scanTracks tracks (pre ++ code :: post) =
      (pre ++ [code], some (xml.map parseXmlEntry)) := by
  induction pre with
  | nil => simp [scanTracks, hcode]
  | cons p ps ih =>
    have hp := hpre p (List.mem_cons_self p ps)
    have ih2 := ih (fun c hc => hpre c (List.mem_cons_of_mem p hc))
    simp [scanTracks, hp, ih2]

/-! ### Claim C3 -/

/-- Claim C3: the secondary provider checks candidate caption-track codes in
exactly the order `langs` followed by `"a." + langs[0]`; the first candidate
with an existing track is fetched — its entries parsed into segments with
the timestamp attributes as (rational-modelled) floats and the text stripped
of surrounding whitespace — and no later candidate is consulted (the trace
of consulted codes stops at the hit). In particular, with tracks
`["en", "a.en"]` and preference `["en"]`, track `"en"` is selected. -/
theorem c3_track_precedence :
    (∀ (tracks : List (Chars × List XmlEntry)) (l0 : Chars)
      (rest pre post : List Chars) (code : Chars) (xml : List XmlEntry),
      (l0 :: rest) ++ [('a' :: '.' :: l0)] = pre ++ code :: post →
      (∀ c ∈ pre, List.lookup c tracks = none) →
      List.lookup code tracks = some xml →
      fetchWithPytube tracks (l0 :: rest) =
        (pre ++ [code], some (xml.map parseXmlEntry))) ∧
    (∀ q1 q2 q3 q4 : ℚ,
      fetchWithPytube
        [((("en").toList), enTrack q1 q2), ((("a.en").toList), aenTrack q3 q4)]
        [(("en").toList)] =
      ([(("en").toList)], some [⟨(("hello").toList), q1, q2⟩])) := by
  constructor
  · intro tracks l0 rest pre post code xml hsplit hpre hcode
    simp only [fetchWithPytube]
    rw [hsplit, scanTracks_found tracks pre code post xml hpre hcode]
  · intro q1 q2 q3 q4
    have hps : pyStrip ([' ', 'h', 'e', 'l', 'l', 'o', ' ']) =
        ['h', 'e', 'l', 'l', 'o'] := by decide
    simp [fetchWithPytube, scanTracks, enTrack, parseXmlEntry, List.lookup,
      hps]

/-- Witness for C3's general precedence conjunct at a concrete track table. -/
theorem c3_track_precedence_witness :
    fetchWithPytube [((("en").toList), enTrack 0 0)] [(("en").toList)] =
      ([] ++ [(("en").toList)], some ((enTrack 0 0).map parseXmlEntry)) :=
  c3_track_precedence.1 [((("en").toList), enTrack 0 0)] (("en").toList) []
    [] [('a' :: '.' :: ("en").toList)] (("en").toList) (enTrack 0 0) rfl
    (by simp) (by decide)

/-! ### Claim C8 -/

theorem splitOnChar_append_newline (t r : Chars)
    (h : ∀ c ∈ t, (c == '\n') = false) :
    splitOnChar '\n' (t ++ '\n' :: r) = t :: splitOnChar '\n' r := by
  induction t with
  | nil => simp [splitOnChar]
  | cons c cs ih =>
    have hc := h c (List.mem_cons_self c cs)
    have ih2 := ih (fun a ha => h a (List.mem_cons_of_mem c ha))
    simp [splitOnChar, hc, ih2]

theorem splitOnChar_ne_nil (sep : Char) (l : Chars) :
    ¬(splitOnChar sep l = []) := by
  cases l with
  | nil => simp [splitOnChar]
  | cons c cs =>
    simp only [splitOnChar]
    split
    · simp
    · cases h : splitOnChar sep cs with
      | nil => simp
      | cons a as => simp

theorem fileLines_cons (t r : Chars) (h : ∀ c ∈ t, (c == '\n') = false) :
    fileLines (t ++ '\n' :: r) = t :: fileLines r := by
  rw [fileLines, fileLines, splitOnChar_append_newline t r h]
  cases hps : splitOnChar '\n' r with
  | nil => exact absurd hps (splitOnChar_ne_nil _ _)
  | cons a as =>
    rw [List.getLast?_cons_cons]
    cases hl : (a :: as).getLast? with
    | none => rfl
    | some ll =>
      cases ll with
      | nil => rw [List.dropLast_cons₂]
      | cons y ys => rfl

/-- Claim C8 counterexample: a transcript whose single segment's text
contains a newline produces a two-line file, not the one line per segment
the claim promises. -/
theorem c8_counterexample :
    fileLines (txtFileContent [newlineSeg]) = [['a'], ['b']] ∧
    ¬(fileLines (txtFileContent [newlineSeg]) = [newlineSeg.text]) := by
  decide

/-- Claim C8 (amended): for every transcript whose segment texts contain no
newline character, the plain-text file has exactly one line per segment, in
order, each equal to that segment's text; a text containing `\n` instead
contributes one extra line per embedded newline. -/
theorem c8_amended (segs : List Segment)
    (h : ∀ s ∈ segs, ¬('\n' ∈ s.text)) :
    fileLines (txtFileContent segs) = segs.map Segment.text := by
  induction segs with
  | nil => rfl
  | cons s ss ih =>
    have hs := h s (List.mem_cons_self s ss)
    have ih2 := ih (fun a ha => h a (List.mem_cons_of_mem s ha))
    have he : txtFileContent (s :: ss) =
        s.text ++ '\n' :: txtFileContent ss := by
      simp [txtFileContent]
    rw [he, fileLines_cons s.text (txtFileContent ss)
      (fun c hc => beq_eq_false_iff_ne.mpr (fun hce => hs (hce ▸ hc))),
      ih2, List.map_cons]

/-- Witness for the amended C8 on the spec's two-line scenario. -/
theorem c8_amended_witness :
    fileLines (txtFileContent
        [⟨("hello").toList, 0, r12⟩, ⟨("world").toList, r12, r08⟩]) =
      ([⟨("hello").toList, 0, r12⟩,
        ⟨("world").toList, r12, r08⟩] : List Segment).map Segment.text :=
  c8_amended [⟨("hello").toList, 0, r12⟩, ⟨("world").toList, r12, r08⟩]
    (by decide)

/-! ### Claim C9 -/

/-- Claim C9: for every nonnegative start time the document writer's label
is `[MM:SS]` with `MM = ⌊start / 60⌋` and `SS = ⌊start mod 60⌋` (floor,
truncation toward zero — never rounding up), each rendered zero-padded to
at least two digits; the label prefixes the segment's paragraph; starts `0`
and `1.2` yield `[00:00]` and `[00:01]`. -/
theorem c9_timestamp_floor :
    (∀ s : ℚ, 0 ≤ s →
      pdfTimestampLabel s =
        '[' :: zeroPadTo 2 (Nat.toDigits 10 (⌊s / 60⌋).toNat) ++
          ':' :: zeroPadTo 2
            (Nat.toDigits 10 (⌊s - 60 * ((⌊s / 60⌋ : ℤ) : ℚ)⌋).toNat) ++
          (']' :: [])) ∧
    (∀ seg : Segment, pdfParagraph seg =
      pdfTimestampLabel seg.start ++ ' ' :: seg.text) ∧
    pdfTimestampLabel 0 = ("[00:00]").toList ∧
    pdfTimestampLabel (6 / 5 : ℚ) = ("[00:01]").toList := by
  have hfm : ∀ n : ℤ, 0 ≤ n →
      format02d n = zeroPadTo 2 (Nat.toDigits 10 n.toNat) := by
    intro n hn
    rw [format02d, if_neg (by omega)]
    have he : n.natAbs = n.toNat := by omega
    rw [he]
  have hmain : ∀ s : ℚ, 0 ≤ s →
      pdfTimestampLabel s =
        '[' :: zeroPadTo 2 (Nat.toDigits 10 (⌊s / 60⌋).toNat) ++
          ':' :: zeroPadTo 2
            (Nat.toDigits 10 (⌊s - 60 * ((⌊s / 60⌋ : ℤ) : ℚ)⌋).toNat) ++
          (']' :: []) := by
    intro s hs
    have hdiv : (0 : ℚ) ≤ s / 60 := div_nonneg hs (by norm_num)
    have hfl : (0 : ℤ) ≤ ⌊s / 60⌋ := Int.floor_nonneg.mpr hdiv
    have hm : pyInt (pyFloorDiv s 60) = ⌊s / 60⌋ := by
      rw [pyFloorDiv, pyInt, if_pos (by exact_mod_cast hfl)]
      exact Int.floor_intCast _
    have hmod_nonneg : 0 ≤ s - 60 * ((⌊s / 60⌋ : ℤ) : ℚ) := by
      have h2 : 60 * ((⌊s / 60⌋ : ℤ) : ℚ) ≤ 60 * (s / 60) :=
        mul_le_mul_of_nonneg_left (Int.floor_le _) (by norm_num)
      have h3 : s / 60 * 60 = s := div_mul_cancel₀ s (by norm_num)
      linarith
    have hsec : pyInt (pyMod s 60) = ⌊s - 60 * ((⌊s / 60⌋ : ℤ) : ℚ)⌋ := by
      rw [pyMod, pyInt, if_pos hmod_nonneg]
    rw [pdfTimestampLabel, hm, hsec, hfm _ hfl,
      hfm _ (Int.floor_nonneg.mpr hmod_nonneg)]
  refine ⟨hmain, fun seg => rfl, ?_, ?_⟩
  · rw [hmain 0 le_rfl]
    have h1 : ⌊(0 : ℚ) / 60⌋ = 0 := by norm_num
    rw [h1]
    norm_num
    decide
  · rw [hmain (6 / 5 : ℚ) (by norm_num)]
    have h1 : ⌊(6 / 5 : ℚ) / 60⌋ = 0 := by
      rw [Int.floor_eq_zero_iff]
      constructor <;> norm_num
    rw [h1]
    have h2 : (6 / 5 : ℚ) - 60 * ((0 : ℤ) : ℚ) = 6 / 5 := by norm_num
    rw [h2]
    have h3 : ⌊(6 / 5 : ℚ)⌋ = 1 := by
      rw [Int.floor_eq_iff]
      norm_num
    rw [h3]
    decide

/-- Witness for C9's floor characterization at start time zero. -/
theorem c9_timestamp_floor_witness :
    pdfTimestampLabel 0 =
      '[' :: zeroPadTo 2 (Nat.toDigits 10 (⌊(0 : ℚ) / 60⌋).toNat) ++
        ':' :: zeroPadTo 2
          (Nat.toDigits 10
            (⌊(0 : ℚ) - 60 * ((⌊(0 : ℚ) / 60⌋ : ℤ) : ℚ)⌋).toNat) ++
        (']' :: []) :=
  c9_timestamp_floor.1 0 le_rfl

/-! ### Claim C7 -/

theorem segOfJson_jsonOfSegment (s : Segment) :
    segOfJson (jsonOfSegment s) = some s := by
  cases s with
  | mk t st d =>
    have h1 : ((("start").toList == ("text").toList) : Bool) = false := by
      decide
    have h2 : ((("duration").toList == ("text").toList) : Bool) = false := by
      decide
    have h3 : ((("duration").toList == ("start").toList) : Bool) = false := by
      decide
    simp [segOfJson, jsonOfSegment, List.lookup, h1, h2, h3]

theorem jsonLoad_dump (segs : List Segment) :
    jsonLoadSegments (jsonDumpSegments segs) = some segs := by
  simp only [jsonDumpSegments, jsonLoadSegments]
  induction segs with
  | nil => rfl
  | cons s ss ih =>
    simp [segsOfJsonList, segOfJson_jsonOfSegment, ih]

theorem escapeJsonString_id (s : Chars)
    (h : ∀ c ∈ s, ¬(c = '"') ∧ ¬(c = '\\') ∧ 32 ≤ c.toNat) :
    escapeJsonString s = s := by
  induction s with
  | nil => rfl
  | cons c cs ih =>
    obtain ⟨hq, hb, h32⟩ := h c (List.mem_cons_self c cs)
    have ih2 := ih (fun a ha => h a (List.mem_cons_of_mem c ha))
    have hn : ¬(c = '\n') := fun he => absurd h32 (by rw [he]; decide)
    have hr : ¬(c = '\r') := fun he => absurd h32 (by rw [he]; decide)
    have ht : ¬(c = '\t') := fun he => absurd h32 (by rw [he]; decide)
    have hb8 : ¬(c = '\x08') := fun he => absurd h32 (by rw [he]; decide)
    have hf : ¬(c = '\x0c') := fun he => absurd h32 (by rw [he]; decide)
    have hlt : ¬(c.toNat < 32) := by omega
    have hch : escapeJsonChar c = [c] := by
      simp [escapeJsonChar, hq, hb, hn, hr, ht, hb8, hf, hlt]
    simp [escapeJsonString] at ih2 ⊢
    rw [hch]
    simpa using ih2

/-- Claim C7: serializing a transcript with the structured-data writer and
parsing it back yields exactly the same ordered segments (lossless value
round-trip, all three fields identical); characters needing no JSON escape —
in particular all non-ASCII — are written verbatim under
`ensure_ascii=False`; and the rendered file text of the spec's two-segment
example (with a non-ASCII character) is exactly the pretty-printed
2-space-indented form. -/
theorem c7_json_roundtrip :
    (∀ segs : List Segment,
      jsonLoadSegments (jsonDumpSegments segs) = some segs) ∧
    (∀ s : Chars, (∀ c ∈ s, ¬(c = '"') ∧ ¬(c = '\\') ∧ 32 ≤ c.toNat) →
      escapeJsonString s = s) ∧
    jsonFileContent exampleSegs = exampleJsonText := by
  refine ⟨jsonLoad_dump, escapeJsonString_id, ?_⟩
  decide

/-- Witness for C7 at the example transcript and a non-ASCII text. -/
theorem c7_json_roundtrip_witness :
    jsonLoadSegments (jsonDumpSegments exampleSegs) = some exampleSegs ∧
    escapeJsonString (("héllo").toList) = ("héllo").toList :=
  ⟨c7_json_roundtrip.1 exampleSegs,
    c7_json_roundtrip.2.1 (("héllo").toList) (by decide)⟩
